import Mathlib

/-!
Verification of the pindada backend service (src/backend/main.py).

The development shallowly embeds the Python handlers as pure Lean
functions.  Database tables become lists of row structures; the SQL
statements issued by each handler are translated into the corresponding
list operations (`find?` for `... WHERE ... LIMIT 1` via `fetchone`,
`filter` for `WHERE`, `insertionSort` for `ORDER BY`, `drop`/`take` for
`OFFSET`/`LIMIT`, `map` for `UPDATE ... WHERE`).  Library primitives the
code calls (SHA-256 via `hashlib`, `json.dumps`) are modelled as opaque
function parameters, since none of the verified properties depend on
their internals.  Timestamps are integers (milliseconds since epoch,
matching the `int(ts * 1000)` convention the code uses for token
expiries).  Python string builtins used by the handlers (`in`,
`startswith`, `replace`, `strip`) are given explicit character-list
implementations so that everything evaluates inside the kernel.
-/

namespace Pindada

/-- Decide whether `pre` is a prefix of `l`, modelling Python `str.startswith`
applied to the underlying character sequences. -/
def charsPre : List Char → List Char → Bool
  | [], _ => true
  | _ :: _, [] => false
  | c :: cs, d :: ds => c == d && charsPre cs ds

/-- Decide whether `needle` occurs contiguously inside `hay`, modelling the
Python `in` operator on strings. -/
def charsHas (needle : List Char) : List Char → Bool
  | [] => charsPre needle []
  | c :: cs => charsPre needle (c :: cs) || charsHas needle cs

/-- Model of the Python expression `needle in hay` for strings. -/
def strContains (hay needle : String) : Bool :=
  charsHas needle.toList hay.toList

/-- Fuel-indexed worker for `replaceChars`.  One unit of fuel is spent per
character of the haystack, which is enough because every step consumes at
least one character when the needle is nonempty. -/
def replaceAux (needle repl : List Char) : Nat → List Char → List Char
  | 0, l => l
  | _ + 1, [] => []
  | fuel + 1, c :: cs =>
    if !needle.isEmpty && charsPre needle (c :: cs) then
      repl ++ replaceAux needle repl fuel (List.drop (needle.length - 1) cs)
    else
      c :: replaceAux needle repl fuel cs

/-- Model of Python `str.replace(needle, repl)`: replaces every
non-overlapping occurrence, scanning left to right. -/
def replaceChars (needle repl hay : List Char) : List Char :=
  replaceAux needle repl hay.length hay

/-- Model of Python `str.strip()`: drops leading and trailing whitespace. -/
def stripChars (l : List Char) : List Char :=
  ((l.dropWhile Char.isWhitespace).reverse.dropWhile Char.isWhitespace).reverse

/-- Token extraction performed by the `/auth/profile` handler:
`auth_header.replace("Bearer ", "").strip()`. -/
def extractBearer (hdr : String) : String :=
  String.mk (stripChars (replaceChars "Bearer ".toList [] hdr.toList))

/-- SQL `COALESCE(a, b)` restricted to two arguments: the first non-NULL
value. -/
def coalesce {α : Type} (a b : Option α) : Option α :=
  match a with
  | some v => some v
  | none => b

/-- Python truthiness of an optional string (`None` and `""` are falsy). -/
def strTruthy : Option String → Bool
  | none => false
  | some s => !(s == "")

/-- Python truthiness of an optional integer (`None` and `0` are falsy). -/
def natTruthy : Option Nat → Bool
  | none => false
  | some n => !(n == 0)

/-! ## Token/session store -/

/-- Parse outcome of the `meta` column of a session row, as observed by
`get_user_id_from_token`.  `absent` covers SQL NULL and the empty string
(both falsy under `if meta:`); `invalid` covers strings `json.loads`
rejects; `parsed e` covers parseable JSON whose optional
`access_expires_at` entry is `e` (milliseconds since epoch). -/
inductive SessionMeta : Type
  | absent : SessionMeta
  | invalid : SessionMeta
  | parsed : Option Int → SessionMeta
deriving DecidableEq

/-- One row of the `user_sessions` table, with the columns written by
`create_session` and read by `get_user_id_from_token`. -/
structure SessionRow where
  user_id : Nat
  device_id : Option String
  platform : String
  access_token_hash : String
  refresh_token_hash : String
  refresh_expires_at : Int
  revoked_at : Option Int
  last_active_at : Int
  last_ip : Option String
  meta : SessionMeta
deriving DecidableEq

/-- Source `hash_token`: SHA-256 hex digest of the UTF-8 encoded token.
The digest itself (`hashlib.sha256(...).hexdigest()`) is the opaque
parameter `sha256hex`. -/
def hash_token (sha256hex : String → String) (token : String) : String :=
  sha256hex token

/-- Milliseconds in one day, the unit used by `timedelta(days=...)` once
timestamps are expressed in epoch milliseconds. -/
def msPerDay : Int := 86400000

/-- Source `create_session`: hashes the two freshly generated secrets,
builds the row inserted into `user_sessions`, and returns the raw access
token together with its expiry (epoch milliseconds).  The random secrets
(`secrets.token_urlsafe`) enter as the parameters `access_token` and
`refresh_token`; `now_ms` is `datetime.now(timezone.utc)` in epoch
milliseconds. -/
def create_session (sha256hex : String → String) (user_id : Nat)
    (access_token refresh_token : String) (now_ms : Int)
    (access_days refresh_days : Int) (client_host : Option String) :
    SessionRow × (String × Int) :=
  let access_hash := hash_token sha256hex access_token
  let refresh_hash := hash_token sha256hex refresh_token
  let refresh_expires_at := now_ms + refresh_days * msPerDay
  let access_expires_at := now_ms + access_days * msPerDay
  ({ user_id := user_id
     device_id := none
     platform := "wechat"
     access_token_hash := access_hash
     refresh_token_hash := refresh_hash
     refresh_expires_at := refresh_expires_at
     revoked_at := none
     last_active_at := now_ms
     last_ip := client_host
     meta := SessionMeta.parsed (some access_expires_at) },
   (access_token, access_expires_at))

/-- Source `get_user_id_from_token`: hashes the presented token, fetches
the first session row whose `access_token_hash` matches, then rejects it
when `revoked_at` is set, when the meta JSON is unparseable, or when a
truthy `access_expires_at` lies strictly in the past. -/
def get_user_id_from_token (sha256hex : String → String) (now_ms : Int)
    (sessions : List SessionRow) (token : String) : Option Nat :=
  if token = "" then none
  else
    match sessions.find?
        (fun r => r.access_token_hash == hash_token sha256hex token) with
    | none => none
    | some row =>
      if row.revoked_at.isSome then none
      else
        match row.meta with
        | SessionMeta.absent => some row.user_id
        | SessionMeta.invalid => none
        | SessionMeta.parsed none => some row.user_id
        | SessionMeta.parsed (some e) =>
          if e ≠ 0 ∧ e < now_ms then none else some row.user_id

/-! ## Identity resolver -/

/-- Profile payload of the WeChat login request (`WechatProfile` pydantic
model). -/
structure WechatProfile where
  nickName : Option String
  avatarUrl : Option String
  gender : Option Int
  country : Option String
  province : Option String
  city : Option String
  language : Option String
deriving DecidableEq

/-- One row of the `users` table, restricted to the columns this service
reads or writes. -/
structure UserRow where
  id : Nat
  uuid : String
  username : Option String
  avatar : Option String
  profile : Option String
  last_login_at : Option Int
  last_login_ip : Option String
deriving DecidableEq

/-- One row of the `user_auths` table. -/
structure UserAuthRow where
  user_id : Nat
  provider : String
  provider_user_id : String
  verified : Nat
deriving DecidableEq

/-- The relational state touched by the identity resolver: the two tables
plus the auto-increment counter that yields `cursor.lastrowid` for the
next `users` insert. -/
structure AuthDB where
  users : List UserRow
  user_auths : List UserAuthRow
  next_user_id : Nat
deriving DecidableEq

/-- Predicate of the login lookup query: a `user_auths` row for provider
"wechat" with the given subject id that joins to an existing `users`
row. -/
def wechatJoin (users : List UserRow) (openid : String) (a : UserAuthRow) : Bool :=
  a.provider == "wechat" && a.provider_user_id == openid &&
    users.any (fun u => u.id == a.user_id)

/-- The `UPDATE users SET username = COALESCE(...) ... WHERE id = %s` step
shared by login and profile update. -/
def applyProfileUpdate (nickName avatarUrl profile_json : Option String)
    (uid : Nat) (u : UserRow) : UserRow :=
  if u.id == uid then
    { u with
      username := coalesce nickName u.username
      avatar := coalesce avatarUrl u.avatar
      profile := coalesce profile_json u.profile }
  else u

/-- The final `UPDATE users SET last_login_at = NOW(), last_login_ip = %s
WHERE id = %s` step of the login flow. -/
def applyLastLogin (now_ms : Int) (host : Option String) (uid : Nat)
    (u : UserRow) : UserRow :=
  if u.id == uid then
    { u with last_login_at := some now_ms, last_login_ip := host }
  else u

/-- Source `get_or_create_user`: looks up the WeChat binding, creating a
fresh `users` row and `user_auths` row when none exists, then applies the
profile COALESCE update, the (vacuous) unionid update, and the last-login
update.  `dumps` is the opaque `json.dumps(profile.dict(exclude_none=True))`
serializer; `fresh_uuid` is the generated `uuid.uuid4()` string; `host` is
`request.client.host`. -/
def get_or_create_user (dumps : WechatProfile → String) (openid : String)
    (unionid : Option String) (profile : Option WechatProfile)
    (host : Option String) (fresh_uuid : String) (now_ms : Int)
    (db : AuthDB) : Nat × AuthDB :=
  match db.user_auths.find? (wechatJoin db.users openid) with
  | some joined =>
    let user_id := joined.user_id
    let users1 :=
      match profile with
      | some p =>
        db.users.map
          (applyProfileUpdate p.nickName p.avatarUrl (some (dumps p)) user_id)
      | none => db.users
    let auths1 :=
      if strTruthy unionid then
        db.user_auths.map (fun a =>
          if a.user_id == user_id && a.provider == "wechat" then
            { a with provider_user_id := a.provider_user_id }
          else a)
      else db.user_auths
    let users2 := users1.map (applyLastLogin now_ms host user_id)
    (user_id, { users := users2, user_auths := auths1,
                next_user_id := db.next_user_id })
  | none =>
    let user_id := db.next_user_id
    let newUser : UserRow :=
      { id := user_id
        uuid := fresh_uuid
        username := profile.bind WechatProfile.nickName
        avatar := profile.bind WechatProfile.avatarUrl
        profile := profile.map dumps
        last_login_at := none
        last_login_ip := none }
    let newAuth : UserAuthRow :=
      { user_id := user_id, provider := "wechat",
        provider_user_id := openid, verified := 1 }
    let users0 := db.users ++ [newUser]
    let auths0 := db.user_auths ++ [newAuth]
    let users1 :=
      match profile with
      | some p =>
        users0.map
          (applyProfileUpdate p.nickName p.avatarUrl (some (dumps p)) user_id)
      | none => users0
    let auths1 :=
      if strTruthy unionid then
        auths0.map (fun a =>
          if a.user_id == user_id && a.provider == "wechat" then
            { a with provider_user_id := a.provider_user_id }
          else a)
      else auths0
    let users2 := users1.map (applyLastLogin now_ms host user_id)
    (user_id, { users := users2, user_auths := auths1,
                next_user_id := db.next_user_id + 1 })

/-- The uniqueness invariant of the spec data model: no two `user_auths`
rows share a (provider, provider_user_id) pair, and every binding resolves
to exactly one `users` row. -/
def AuthInv (db : AuthDB) : Prop :=
  db.user_auths.Pairwise
    (fun a b => ¬(a.provider = b.provider ∧ a.provider_user_id = b.provider_user_id)) ∧
  ∀ a ∈ db.user_auths, ∃! u, u ∈ db.users ∧ u.id = a.user_id

/-! ## Profile update endpoint -/

/-- Source `update_profile` (the `/auth/profile` handler), beginning at the
authorization-header check.  `dumps2` is the opaque
`json.dumps` of the two-field profile dict.  The result is `Except.error
401` for the three unauthenticated exits and `Except.ok` with the updated
`users` table otherwise. -/
def update_profile (sha256hex : String → String) (now_ms : Int)
    (sessions : List SessionRow) (users : List UserRow)
    (dumps2 : Option String → Option String → String)
    (auth_header : Option String) (nickName avatarUrl : Option String) :
    Except Nat (List UserRow) :=
  match auth_header with
  | none => Except.error 401
  | some hdr =>
    if hdr == "" || !charsPre "Bearer ".toList hdr.toList then
      Except.error 401
    else
      let token := extractBearer hdr
      match get_user_id_from_token sha256hex now_ms sessions token with
      | none => Except.error 401
      | some user_id =>
        -- `if not user_id:` also rejects a resolved id of 0 (Python falsy)
        if user_id == 0 then Except.error 401 else
        let profile_json :=
          if strTruthy nickName || strTruthy avatarUrl then
            some (dumps2 nickName avatarUrl)
          else none
        Except.ok
          (users.map (applyProfileUpdate nickName avatarUrl profile_json user_id))

/-! ## Chat relay -/

/-- One conversation turn (`Message` pydantic model). -/
structure ChatMessage where
  role : String
  content : String
deriving DecidableEq

/-- The fixed system instruction (`SYSTEM_PROMPT`). -/
def SYSTEM_PROMPT : String :=
  "你是一个专业的礼物推荐顾问，名字叫\"品答答\"。你的任务是通过对话帮助用户找到最合适的礼物。\n\n你需要：\n1. 友好、热情地与用户交流\n2. 通过提问收集信息：送礼对象、场合、预算、对方喜好等\n3. 根据收集的信息，推荐合适的礼物\n4. 回答要简洁、有条理，适当使用emoji让对话更生动\n5. 如果用户提供的信息不够，主动追问关键信息\n\n礼物推荐范围包括：\n- 数码产品：耳机、手表、键盘等\n- 美妆护肤：口红、香水、护肤套装\n- 时尚配饰：包包、首饰、围巾\n- 运动装备：球鞋、运动包、健身器材\n- 创意礼物：定制礼物、手工制品、纪念品\n\n请保持回复简洁（100字以内），不要过于冗长。"

/-- Prompt assembly of the buffered `/chat` handler: the system
instruction, then `history[-20:]` (skipped entirely when the history is
empty or absent, both falsy), then the new user message.  Python's
`history[-20:]` is `drop (length - 20)` under truncated subtraction. -/
def chat_build_messages (message : String) (history : List ChatMessage) :
    List ChatMessage :=
  let messages := [ChatMessage.mk "system" SYSTEM_PROMPT]
  let messages :=
    if history.isEmpty then messages
    else
      messages ++
        (history.drop (history.length - 20)).map
          (fun m => ChatMessage.mk m.role m.content)
  messages ++ [ChatMessage.mk "user" message]

/-- Prompt assembly of the streaming `/chat/stream` handler; the source
duplicates the buffered handler's code verbatim. -/
def chat_stream_build_messages (message : String) (history : List ChatMessage) :
    List ChatMessage :=
  let messages := [ChatMessage.mk "system" SYSTEM_PROMPT]
  let messages :=
    if history.isEmpty then messages
    else
      messages ++
        (history.drop (history.length - 20)).map
          (fun m => ChatMessage.mk m.role m.content)
  messages ++ [ChatMessage.mk "user" message]

/-- Source `generate_suggestions`: keyword groups checked against the raw
user message (the `ai_response` argument and the computed `msg_lower` are
never consulted), first match wins, with a fixed default. -/
def generate_suggestions (user_message ai_response : String) : List String :=
  if strContains user_message "推荐" || strContains user_message "建议" then
    ["看看具体商品", "预算可以调整", "还有其他选择吗"]
  else if strContains user_message "预算" || strContains user_message "价格" then
    ["这个价位不错", "能便宜点吗", "我想看看推荐"]
  else if strContains user_message "男朋友" || strContains user_message "女朋友" then
    ["告诉你更多喜好", "看看推荐吧", "预算500左右"]
  else if strContains user_message "生日" || strContains user_message "纪念日" then
    ["想要惊喜感", "实用性为主", "看看推荐"]
  else
    ["我想看看推荐", "还有其他的吗", "这些不错"]

/-- One server-sent event of the streaming chat endpoint, as the tagged
JSON payload the generator yields. -/
inductive SSEEvent : Type
  | content : String → String → SSEEvent
  | done : String → List String → SSEEvent
  | error : String → SSEEvent
deriving DecidableEq

/-- Worker of `chat_stream_events`: folds the upstream chunks, skipping
falsy deltas (`None` and `""`), emitting a content event with the
cumulative text for each kept fragment, then the terminal event —
`done` on normal exhaustion, `error` when the body raised (`raises`
carries `str(e)` of the exception). -/
def chat_stream_go (message acc : String) :
    List (Option String) → Option String → List SSEEvent
  | [], none => [SSEEvent.done acc (generate_suggestions message acc)]
  | [], some err => [SSEEvent.error ("AI服务异常: " ++ err)]
  | chunk :: rest, raises =>
    match chunk with
    | none => chat_stream_go message acc rest raises
    | some s =>
      if s = "" then chat_stream_go message acc rest raises
      else SSEEvent.content s (acc ++ s) :: chat_stream_go message (acc ++ s) rest raises

/-- Event sequence produced by the `generate()` coroutine of
`/chat/stream` for one upstream completion call.  `chunks` is the sequence
of `chunk.choices[0].delta.content` values the upstream stream yielded
before finishing (or before raising); `raises = some e` means the body
raised an exception with message `e` at that point, in which case the
`except` block emits one in-band error event instead of the `done`
event. -/
def chat_stream_events (message : String) (chunks : List (Option String))
    (raises : Option String) : List SSEEvent :=
  chat_stream_go message "" chunks raises

/-- Cumulative content events carried by a fragment sequence: each event
holds its fragment and the concatenation of the fragments so far appended
to `acc`.  Property language for the streaming theorem. -/
def cumulativeEvents (acc : String) : List String → List SSEEvent
  | [] => []
  | f :: fs => SSEEvent.content f (acc ++ f) :: cumulativeEvents (acc ++ f) fs

/-- The fragments the stream actually relays: the non-`None`, nonempty
upstream deltas, in order. -/
def realFragments (chunks : List (Option String)) : List String :=
  (chunks.filterMap id).filter (fun s => !(s == ""))

/-- Concatenation of a fragment list. -/
def concatAll : List String → String
  | [] => ""
  | s :: rest => s ++ concatAll rest

/-- The fragment carried by a content event (`""` for the other event
kinds). -/
def fragOf : SSEEvent → String
  | SSEEvent.content f _ => f
  | SSEEvent.done _ _ => ""
  | SSEEvent.error _ => ""

/-- Whether an event is a content event. -/
def isContentEvent : SSEEvent → Bool
  | SSEEvent.content _ _ => true
  | SSEEvent.done _ _ => false
  | SSEEvent.error _ => false

/-- Whether an event is the terminal done event. -/
def isDoneEvent : SSEEvent → Bool
  | SSEEvent.content _ _ => false
  | SSEEvent.done _ _ => true
  | SSEEvent.error _ => false

/-! ## Catalog reader -/

/-- One row of the `products` table, restricted to the columns this
service reads.  `status = 1` marks an active listing; `created_at` is a
timestamp. -/
structure ProductRow where
  product_id : Nat
  spu_name : String
  main_image_url : Option String
  brand_id : Option Nat
  category_id : Option Nat
  description : Option String
  model_number : Option String
  launch_date : Option Int
  status : Nat
  created_at : Int
deriving DecidableEq

/-- The columns selected by the `/products` list query (aliased
`id`/`name`/`image`). -/
structure ProductItem where
  id : Nat
  name : String
  image : Option String
  brand_id : Option Nat
  category_id : Option Nat
  description : Option String
deriving DecidableEq

/-- Projection performed by the list query's SELECT clause. -/
def productItemOf (p : ProductRow) : ProductItem :=
  { id := p.product_id
    name := p.spu_name
    image := p.main_image_url
    brand_id := p.brand_id
    category_id := p.category_id
    description := p.description }

/-- The WHERE clause assembled by `get_products`: always `status = 1`,
plus an equality condition per filter — but only when the Python value is
truthy, so a supplied filter of `0` is silently dropped. -/
def productWhere (category_id brand_id : Option Nat) (p : ProductRow) : Bool :=
  p.status == 1 &&
  (if natTruthy category_id then p.category_id == category_id else true) &&
  (if natTruthy brand_id then p.brand_id == brand_id else true)

/-- Descending creation-time order used by `ORDER BY created_at DESC`. -/
def newestFirst (a b : ProductRow) : Prop :=
  b.created_at ≤ a.created_at

instance : DecidableRel newestFirst := fun a b =>
  inferInstanceAs (Decidable (b.created_at ≤ a.created_at))

/-- Paginated response payload of `/products` (the `data` object). -/
structure ProductPage where
  items : List ProductItem
  total : Nat
  page : Nat
  limit : Nat
  pages : Nat
deriving DecidableEq

/-- Source `get_products`: counts the rows matching the WHERE clause, then
selects one page of them ordered by creation time descending with
`LIMIT limit OFFSET (page-1)*limit`, and reports
`pages = (total + limit - 1) // limit`. -/
def get_products (table : List ProductRow) (page limit : Nat)
    (category_id brand_id : Option Nat) : ProductPage :=
  let matching := table.filter (productWhere category_id brand_id)
  let total := matching.length
  let offset := (page - 1) * limit
  let sorted := List.insertionSort newestFirst matching
  let items := ((sorted.drop offset).take limit).map productItemOf
  { items := items, total := total, page := page, limit := limit,
    pages := (total + limit - 1) / limit }

/-- One row of the `brands` table (the columns the detail join reads). -/
structure BrandRow where
  brand_id : Nat
  brand_name_zh : String
deriving DecidableEq

/-- One row of the `product_affiliate_links` table. -/
structure AffiliateLinkRow where
  link_id : Nat
  product_id : Nat
  platform : String
  original_url : Option String
  affiliate_long_url : Option String
  affiliate_short_url : Option String
  conversion_status : String
  created_at : Int
deriving DecidableEq

/-- The columns selected by the detail handler's link query. -/
structure LinkItem where
  link_id : Nat
  platform : String
  original_url : Option String
  affiliate_long_url : Option String
  affiliate_short_url : Option String
  conversion_status : String
deriving DecidableEq

/-- Projection performed by the link query's SELECT clause. -/
def linkItemOf (l : AffiliateLinkRow) : LinkItem :=
  { link_id := l.link_id
    platform := l.platform
    original_url := l.original_url
    affiliate_long_url := l.affiliate_long_url
    affiliate_short_url := l.affiliate_short_url
    conversion_status := l.conversion_status }

/-- Descending creation-time order on affiliate links. -/
def linkNewestFirst (a b : AffiliateLinkRow) : Prop :=
  b.created_at ≤ a.created_at

instance : DecidableRel linkNewestFirst := fun a b =>
  inferInstanceAs (Decidable (b.created_at ≤ a.created_at))

/-- The detail payload built by `get_product_detail`. -/
structure ProductDetail where
  id : Nat
  name : String
  image : Option String
  brand_id : Option Nat
  brand : Option String
  category_id : Option Nat
  description : Option String
  model_number : Option String
  launch_date : Option Int
  status : Nat
  affiliate_links : List LinkItem
  buy_url : Option String
  buy_platform : Option String
deriving DecidableEq

/-- Source `get_product_detail`: fetches the product (joining the brand
display name), raising 404 (`none`) when the id is unknown; otherwise
attaches the product's affiliate links with `conversion_status =
'success'` ordered newest-first and exposes the first one as the default
buy URL and platform. -/
def get_product_detail (products : List ProductRow) (brands : List BrandRow)
    (links : List AffiliateLinkRow) (pid : Nat) : Option ProductDetail :=
  match products.find? (fun p => p.product_id == pid) with
  | none => none
  | some p =>
    let brand :=
      p.brand_id.bind (fun bid =>
        (brands.find? (fun b => b.brand_id == bid)).map BrandRow.brand_name_zh)
    let successLinks :=
      links.filter (fun l =>
        l.product_id == pid && l.conversion_status == "success")
    let sortedLinks := List.insertionSort linkNewestFirst successLinks
    some
      { id := p.product_id
        name := p.spu_name
        image := p.main_image_url
        brand_id := p.brand_id
        brand := brand
        category_id := p.category_id
        description := p.description
        model_number := p.model_number
        launch_date := p.launch_date
        status := p.status
        affiliate_links := sortedLinks.map linkItemOf
        buy_url := sortedLinks.head?.bind AffiliateLinkRow.affiliate_long_url
        buy_platform := sortedLinks.head?.map AffiliateLinkRow.platform }

instance : IsTotal ProductRow newestFirst :=
  ⟨fun a b => le_total b.created_at a.created_at⟩

instance : IsTrans ProductRow newestFirst :=
  ⟨fun _ _ _ hab hbc => le_trans hbc hab⟩

instance : IsTotal AffiliateLinkRow linkNewestFirst :=
  ⟨fun a b => le_total b.created_at a.created_at⟩

instance : IsTrans AffiliateLinkRow linkNewestFirst :=
  ⟨fun _ _ _ hab hbc => le_trans hbc hab⟩

/-! ## Concrete rows and tables used by the witnesses -/

/-- Concrete session row for the C1 witness: expiry at 100 ms. -/
def wSession1 : SessionRow :=
  { user_id := 7, device_id := none, platform := "wechat",
    access_token_hash := "H", refresh_token_hash := "RH",
    refresh_expires_at := 999, revoked_at := none, last_active_at := 0,
    last_ip := none, meta := SessionMeta.parsed (some 100) }

/-- Concrete session row with absent metadata for the C9 witness. -/
def wSessionAbsent : SessionRow :=
  { user_id := 7, device_id := none, platform := "wechat",
    access_token_hash := "H", refresh_token_hash := "RH",
    refresh_expires_at := 999, revoked_at := none, last_active_at := 0,
    last_ip := none, meta := SessionMeta.absent }

/-- Concrete session row with unparseable metadata for the C9 witness. -/
def wSessionInvalid : SessionRow :=
  { user_id := 8, device_id := none, platform := "wechat",
    access_token_hash := "H", refresh_token_hash := "RH",
    refresh_expires_at := 999, revoked_at := none, last_active_at := 0,
    last_ip := none, meta := SessionMeta.invalid }

/-- Concrete session row for the C10 witness (identity hash, absent
metadata). -/
def wSessionTok : SessionRow :=
  { user_id := 7, device_id := none, platform := "wechat",
    access_token_hash := "tok", refresh_token_hash := "r",
    refresh_expires_at := 9, revoked_at := none, last_active_at := 0,
    last_ip := none, meta := SessionMeta.absent }

/-- Concrete two-row user table for the C10 witness. -/
def wUsers10 : List UserRow :=
  [{ id := 7, uuid := "u7", username := some "n7", avatar := none,
     profile := none, last_login_at := none, last_login_ip := none },
   { id := 8, uuid := "u8", username := some "n8", avatar := none,
     profile := none, last_login_at := none, last_login_ip := none }]

/-- Empty database with auto-increment counter at 1, for the C3
witness. -/
def wEmptyDB : AuthDB :=
  { users := [], user_auths := [], next_user_id := 1 }

/-- Concrete one-row product table for the C7 witness. -/
def wTable7 : List ProductRow :=
  [{ product_id := 1, spu_name := "p", main_image_url := none,
     brand_id := none, category_id := some 5, description := none,
     model_number := none, launch_date := none, status := 1,
     created_at := 10 }]

/-- Concrete product for the C8 witness. -/
def wProduct8 : ProductRow :=
  { product_id := 1, spu_name := "p", main_image_url := none,
    brand_id := none, category_id := none, description := none,
    model_number := none, launch_date := none, status := 1, created_at := 0 }

/-- Concrete successfully converted affiliate link for the C8 witness. -/
def wSuccessLink : AffiliateLinkRow :=
  { link_id := 1, product_id := 1, platform := "jd", original_url := none,
    affiliate_long_url := some "u", affiliate_short_url := none,
    conversion_status := "success", created_at := 5 }

/-- Concrete pending affiliate link for the C8 witness. -/
def wPendingLink : AffiliateLinkRow :=
  { link_id := 2, product_id := 1, platform := "tb", original_url := none,
    affiliate_long_url := some "v", affiliate_short_url := none,
    conversion_status := "pending", created_at := 6 }

/-- The detail payload `get_product_detail` returns in the C8 witness
scenario. -/
def wDetail8 : ProductDetail :=
  { id := 1, name := "p", image := none, brand_id := none, brand := none,
    category_id := none, description := none, model_number := none,
    launch_date := none, status := 1,
    affiliate_links := [linkItemOf wSuccessLink],
    buy_url := some "u", buy_platform := some "jd" }

/-! ## General helper lemmas -/

/-- Mapping a pointwise-identity function leaves a list unchanged. -/
theorem map_self {α : Type} (f : α → α) (l : List α) (h : ∀ a, f a = a) :
    l.map f = l := by
  induction l with
  | nil => rfl
  | cons x xs ih => simp [h, ih]

/-- An id-preserving row update does not change which user ids are
present. -/
theorem any_id_map (l : List UserRow) (f : UserRow → UserRow)
    (hf : ∀ u, (f u).id = u.id) (x : Nat) :
    (l.map f).any (fun u => u.id == x) = l.any (fun u => u.id == x) := by
  induction l with
  | nil => rfl
  | cons u us ih => simp only [List.map_cons, List.any_cons, hf, ih]

/-- The profile COALESCE update keeps the row id. -/
theorem applyProfileUpdate_id (n a pj : Option String) (uid : Nat) (u : UserRow) :
    (applyProfileUpdate n a pj uid u).id = u.id := by
  unfold applyProfileUpdate; split <;> rfl

/-- The last-login update keeps the row id. -/
theorem applyLastLogin_id (t : Int) (h : Option String) (uid : Nat) (u : UserRow) :
    (applyLastLogin t h uid u).id = u.id := by
  unfold applyLastLogin; split <;> rfl

/-! ## Claim theorems -/

/-- C2: `create_session` persists only the SHA-256 hashes of the two fresh
secrets: the stored `access_token_hash` and `refresh_token_hash` equal
`hash_token` of the raw secrets, the raw access token appears only in the
returned value (with its expiry, also embedded in the stored meta), the
inserted row is unrevoked, and the persisted row depends on the raw
secrets only through their hashes — so the raw token cannot be recovered
from the row. -/
theorem c2_session_stores_only_hashes (sha256hex : String → String)
    (uid : Nat) (atok rtok : String) (now_ms ad rd : Int)
    (host : Option String) :
    (create_session sha256hex uid atok rtok now_ms ad rd host).1.access_token_hash =
      hash_token sha256hex atok ∧
    (create_session sha256hex uid atok rtok now_ms ad rd host).1.refresh_token_hash =
      hash_token sha256hex rtok ∧
    (create_session sha256hex uid atok rtok now_ms ad rd host).2.1 = atok ∧
    (create_session sha256hex uid atok rtok now_ms ad rd host).2.2 =
      now_ms + ad * msPerDay ∧
    (create_session sha256hex uid atok rtok now_ms ad rd host).1.meta =
      SessionMeta.parsed
        (some (create_session sha256hex uid atok rtok now_ms ad rd host).2.2) ∧
    (create_session sha256hex uid atok rtok now_ms ad rd host).1.revoked_at = none ∧
    ∀ atok2 rtok2, sha256hex atok2 = sha256hex atok →
      sha256hex rtok2 = sha256hex rtok →
      (create_session sha256hex uid atok2 rtok2 now_ms ad rd host).1 =
        (create_session sha256hex uid atok rtok now_ms ad rd host).1 := by
  refine ⟨rfl, rfl, rfl, rfl, rfl, rfl, ?_⟩
  intro atok2 rtok2 ha hr
  simp [create_session, hash_token, ha, hr]

/-- Witness for C2 at a concrete hash function and concrete secrets. -/
theorem c2_session_stores_only_hashes_witness :
    (create_session (fun s => s ++ "#") 7 "A" "R" 1000 7 30 none).1.access_token_hash =
      hash_token (fun s => s ++ "#") "A" ∧
    (create_session (fun s => s ++ "#") 7 "A" "R" 1000 7 30 none).2.1 = "A" ∧
    (create_session (fun s => s ++ "#") 7 "A" "R" 1000 7 30 none).1 =
      (create_session (fun s => s ++ "#") 7 "A" "R" 1000 7 30 none).1 :=
  ⟨(c2_session_stores_only_hashes (fun s => s ++ "#") 7 "A" "R" 1000 7 30 none).1,
   (c2_session_stores_only_hashes (fun s => s ++ "#") 7 "A" "R" 1000 7 30 none).2.2.1,
   (c2_session_stores_only_hashes (fun s => s ++ "#") 7 "A" "R" 1000 7 30 none).2.2.2.2.2.2
     "A" "R" rfl rfl⟩

/-- C5: both chat endpoints assemble the same prompt: the fixed system
instruction, then the most recent 20 history turns (`drop (length - 20)`,
a suffix of length `min length 20`), then the new user message; a history
of at most 20 turns is included in full, and a 25-turn history contributes
exactly its last 20 turns. -/
theorem c5_prompt_window (m : String) (h : List ChatMessage) :
    chat_build_messages m h = chat_stream_build_messages m h ∧
    chat_build_messages m h =
      ChatMessage.mk "system" SYSTEM_PROMPT ::
        (h.drop (h.length - 20) ++ [ChatMessage.mk "user" m]) ∧
    (h.drop (h.length - 20)).length = min h.length 20 ∧
    h.drop (h.length - 20) <:+ h ∧
    (h.length ≤ 20 → chat_build_messages m h =
      ChatMessage.mk "system" SYSTEM_PROMPT :: (h ++ [ChatMessage.mk "user" m])) ∧
    (h.length = 25 → chat_build_messages m h =
      ChatMessage.mk "system" SYSTEM_PROMPT :: (h.drop 5 ++ [ChatMessage.mk "user" m])) := by
  have hmap : ∀ l : List ChatMessage,
      l.map (fun x => ChatMessage.mk x.role x.content) = l := by
    intro l; exact map_self _ l (fun a => rfl)
  have hshape : chat_build_messages m h =
      ChatMessage.mk "system" SYSTEM_PROMPT ::
        (h.drop (h.length - 20) ++ [ChatMessage.mk "user" m]) := by
    by_cases hemp : h.isEmpty
    · have : h = [] := List.isEmpty_iff.mp hemp
      subst this; simp [chat_build_messages]
    · simp [chat_build_messages, hemp, hmap]
  refine ⟨rfl, hshape, ?_, ?_, ?_, ?_⟩
  · simp [List.length_drop]; omega
  · exact List.drop_suffix _ _
  · intro h20
    have : h.length - 20 = 0 := by omega
    rw [hshape, this, List.drop_zero]
  · intro h25
    rw [hshape, h25]

/-- Witness for C5 at a concrete message and a concrete 25-turn history. -/
theorem c5_prompt_window_witness :
    (List.replicate 25 (ChatMessage.mk "user" "a")).length = 25 ∧
    chat_build_messages "hi" (List.replicate 25 (ChatMessage.mk "user" "a")) =
      ChatMessage.mk "system" SYSTEM_PROMPT ::
        ((List.replicate 25 (ChatMessage.mk "user" "a")).drop 5 ++
          [ChatMessage.mk "user" "hi"]) :=
  ⟨by simp,
   (c5_prompt_window "hi" (List.replicate 25 (ChatMessage.mk "user" "a"))).2.2.2.2.2
     (by simp)⟩

/-- Counterexample to C6 as stated: the message "推荐预算" contains "预算"
but does not yield the budget suggestion set, because the
recommend/suggest group is checked first and "推荐" also matches. -/
theorem c6_budget_counterexample :
    strContains "推荐预算" "预算" = true ∧
    generate_suggestions "推荐预算" "回复A" ≠
      ["这个价位不错", "能便宜点吗", "我想看看推荐"] ∧
    generate_suggestions "推荐预算" "回复A" =
      ["看看具体商品", "预算可以调整", "还有其他选择吗"] := by
  decide

/-- C6 (amended): `generate_suggestions` never consults the AI response;
it checks the keyword groups recommend/suggest, budget/price,
boyfriend/girlfriend, birthday/anniversary in that priority order and
returns the fixed 3-item set of the first matching group, or the fixed
default set when none matches.  In particular a message containing "预算"
yields the budget set regardless of the AI response, provided none of the
higher-priority recommend/suggest keywords occurs in it. -/
theorem c6_suggestions_amended (m r1 r2 : String) :
    generate_suggestions m r1 = generate_suggestions m r2 ∧
    (strContains m "推荐" = true ∨ strContains m "建议" = true →
      generate_suggestions m r1 = ["看看具体商品", "预算可以调整", "还有其他选择吗"]) ∧
    (strContains m "推荐" = false → strContains m "建议" = false →
      (strContains m "预算" = true ∨ strContains m "价格" = true) →
      generate_suggestions m r1 = ["这个价位不错", "能便宜点吗", "我想看看推荐"]) ∧
    (strContains m "推荐" = false → strContains m "建议" = false →
      strContains m "预算" = false → strContains m "价格" = false →
      (strContains m "男朋友" = true ∨ strContains m "女朋友" = true) →
      generate_suggestions m r1 = ["告诉你更多喜好", "看看推荐吧", "预算500左右"]) ∧
    (strContains m "推荐" = false → strContains m "建议" = false →
      strContains m "预算" = false → strContains m "价格" = false →
      strContains m "男朋友" = false → strContains m "女朋友" = false →
      (strContains m "生日" = true ∨ strContains m "纪念日" = true) →
      generate_suggestions m r1 = ["想要惊喜感", "实用性为主", "看看推荐"]) ∧
    (strContains m "推荐" = false → strContains m "建议" = false →
      strContains m "预算" = false → strContains m "价格" = false →
      strContains m "男朋友" = false → strContains m "女朋友" = false →
      strContains m "生日" = false → strContains m "纪念日" = false →
      generate_suggestions m r1 = ["我想看看推荐", "还有其他的吗", "这些不错"]) := by
  refine ⟨rfl, ?_, ?_, ?_, ?_, ?_⟩
  · rintro (hk | hk) <;> simp [generate_suggestions, hk]
  · rintro h1 h2 (hk | hk) <;> simp [generate_suggestions, h1, h2, hk]
  · rintro h1 h2 h3 h4 (hk | hk) <;>
      simp [generate_suggestions, h1, h2, h3, h4, hk]
  · rintro h1 h2 h3 h4 h5 h6 (hk | hk) <;>
      simp [generate_suggestions, h1, h2, h3, h4, h5, h6, hk]
  · intro h1 h2 h3 h4 h5 h6 h7 h8
    simp [generate_suggestions, h1, h2, h3, h4, h5, h6, h7, h8]

/-- Witness for C6 (amended) at a budget-only message: the AI response is
immaterial and the budget set is returned. -/
theorem c6_suggestions_amended_witness :
    generate_suggestions "预算500" "任意回复" =
      ["这个价位不错", "能便宜点吗", "我想看看推荐"] :=
  (c6_suggestions_amended "预算500" "任意回复" "另一个回复").2.2.1
    (by decide) (by decide) (Or.inl (by decide))

/-- Decomposition of the stream generator: the events are the cumulative
content events of the relayed fragments followed by the terminal event for
the accumulated full text. -/
theorem chat_stream_go_decomp (m : String) (raises : Option String) :
    ∀ (chunks : List (Option String)) (acc : String),
      chat_stream_go m acc chunks raises =
        cumulativeEvents acc (realFragments chunks) ++
          chat_stream_go m (acc ++ concatAll (realFragments chunks)) [] raises := by
  intro chunks
  induction chunks with
  | nil =>
    intro acc
    simp [realFragments, cumulativeEvents, concatAll]
  | cons c rest ih =>
    intro acc
    match c with
    | none =>
      simpa [chat_stream_go, realFragments] using ih acc
    | some s =>
      by_cases hs : s = ""
      · subst hs
        simpa [chat_stream_go, realFragments] using ih acc
      · have hfrag : realFragments (some s :: rest) = s :: realFragments rest := by
          simp [realFragments, hs]
        rw [hfrag]
        show chat_stream_go m acc (some s :: rest) raises =
          (SSEEvent.content s (acc ++ s) ::
            cumulativeEvents (acc ++ s) (realFragments rest)) ++
            chat_stream_go m (acc ++ concatAll (s :: realFragments rest)) [] raises
        have hassoc : acc ++ concatAll (s :: realFragments rest) =
            (acc ++ s) ++ concatAll (realFragments rest) := by
          show acc ++ (s ++ concatAll (realFragments rest)) = _
          rw [String.append_assoc]
        rw [hassoc]
        simpa [chat_stream_go, hs] using ih (acc ++ s)

/-- Cumulative content events are all content events. -/
theorem cumulativeEvents_all_content :
    ∀ (fs : List String) (acc : String),
      (cumulativeEvents acc fs).all isContentEvent = true := by
  intro fs
  induction fs with
  | nil => intro acc; rfl
  | cons f rest ih =>
    intro acc
    simp only [cumulativeEvents, List.all_cons, ih (acc ++ f), isContentEvent,
      Bool.and_self]

/-- The fragments carried by the cumulative content events are exactly the
fragment list, in order. -/
theorem cumulativeEvents_fragments :
    ∀ (fs : List String) (acc : String),
      (cumulativeEvents acc fs).map fragOf = fs := by
  intro fs
  induction fs with
  | nil => intro acc; rfl
  | cons f rest ih =>
    intro acc
    simp only [cumulativeEvents, List.map_cons, fragOf, ih (acc ++ f)]

/-- C4: for every upstream fragment sequence, the streaming endpoint emits
the cumulative content events of the relayed (non-empty) fragments
followed by exactly one terminal `done` event whose full text is the
concatenation, in order, of all preceding content fragments and whose
suggestions are derived from it; when the upstream call raises at any
point, the same content prefix is followed by one in-band `error` event
and no `done` event is emitted. -/
theorem c4_stream_event_shape (m : String) (chunks : List (Option String)) :
    chat_stream_events m chunks none =
      cumulativeEvents "" (realFragments chunks) ++
        [SSEEvent.done (concatAll (realFragments chunks))
          (generate_suggestions m (concatAll (realFragments chunks)))] ∧
    (∀ err, chat_stream_events m chunks (some err) =
      cumulativeEvents "" (realFragments chunks) ++
        [SSEEvent.error ("AI服务异常: " ++ err)]) ∧
    (cumulativeEvents "" (realFragments chunks)).all isContentEvent = true ∧
    (cumulativeEvents "" (realFragments chunks)).map fragOf =
      realFragments chunks ∧
    (chat_stream_events m chunks none).countP isDoneEvent = 1 ∧
    (∀ err, (chat_stream_events m chunks (some err)).countP isDoneEvent = 0) := by
  have hempty : ∀ s : String, ("" : String) ++ s = s := by
    intro s; simp
  have hnone : chat_stream_events m chunks none =
      cumulativeEvents "" (realFragments chunks) ++
        [SSEEvent.done (concatAll (realFragments chunks))
          (generate_suggestions m (concatAll (realFragments chunks)))] := by
    have := chat_stream_go_decomp m none chunks ""
    rw [chat_stream_events, this, hempty, chat_stream_go]
  have hsome : ∀ err, chat_stream_events m chunks (some err) =
      cumulativeEvents "" (realFragments chunks) ++
        [SSEEvent.error ("AI服务异常: " ++ err)] := by
    intro err
    have := chat_stream_go_decomp m (some err) chunks ""
    rw [chat_stream_events, this, hempty, chat_stream_go]
  have hcontent_zero : (cumulativeEvents "" (realFragments chunks)).countP
      isDoneEvent = 0 := by
    rw [List.countP_eq_zero]
    intro e he
    have hall := cumulativeEvents_all_content (realFragments chunks) ""
    have := (List.all_eq_true.mp hall) e he
    cases e with
    | content f t => simp [isDoneEvent]
    | done t s => simp [isContentEvent] at this
    | error s => simp [isContentEvent] at this
  refine ⟨hnone, hsome, cumulativeEvents_all_content _ _,
    cumulativeEvents_fragments _ _, ?_, ?_⟩
  · rw [hnone, List.countP_append, hcontent_zero]
    rfl
  · intro err
    rw [hsome err, List.countP_append, hcontent_zero]
    rfl

/-- The expression `(t + l - 1) / l` is the ceiling of `t / l`: it is the
least `k` with `t ≤ k * l`. -/
theorem ceil_div_spec (t l : Nat) (hl : 1 ≤ l) :
    t ≤ ((t + l - 1) / l) * l ∧ ∀ k, t ≤ k * l → (t + l - 1) / l ≤ k := by
  rcases Nat.eq_zero_or_pos t with ht | ht
  · subst ht
    constructor
    · exact Nat.zero_le _
    · intro k _
      have : (0 + l - 1) / l = 0 := Nat.div_eq_of_lt (by omega)
      omega
  · have hq : (t + l - 1) / l = (t - 1) / l + 1 := by
      have : t + l - 1 = (t - 1) + l := by omega
      rw [this, Nat.add_div_right _ (by omega)]
    constructor
    · have hlt : t - 1 < ((t - 1) / l + 1) * l :=
        (Nat.div_lt_iff_lt_mul (by omega)).mp (Nat.lt_succ_self _)
      rw [hq]
      omega
    · intro k hk
      rcases Nat.eq_zero_or_pos k with hk0 | hk0
      · subst hk0; omega
      · have hlt : t - 1 < k * l := by omega
        have := (Nat.div_lt_iff_lt_mul (show 0 < l by omega)).mpr hlt
        omega

/-- Counterexample to C7 as stated: a supplied category filter of `0` is
falsy in Python, so the equality condition is dropped and an item with a
different category is returned. -/
theorem c7_zero_filter_counterexample :
    (get_products
        [{ product_id := 1, spu_name := "p", main_image_url := none,
           brand_id := none, category_id := some 5, description := none,
           model_number := none, launch_date := none, status := 1,
           created_at := 0 }]
        1 20 (some 0) none).items =
      [{ id := 1, name := "p", image := none, brand_id := none,
         category_id := some 5, description := none }] ∧
    ({ id := 1, name := "p", image := none, brand_id := none,
       category_id := some 5, description := none } : ProductItem).category_id ≠
      some 0 := by
  decide

/-- C7 (amended): for every product table, page ≥ 1, limit ≥ 1 and
optional nonzero category/brand filters, `get_products` returns at most
`limit` items, each the projection of an active table row matching every
supplied filter, in an order sorted by creation time descending; `total`
counts the matching rows and `pages = (total + limit - 1) / limit`, the
ceiling of `total / limit`.  (The claim holds as stated except that a
supplied filter value of `0` is falsy in Python and therefore ignored,
so filters are required to be nonzero here.) -/
theorem c7_list_products_amended (table : List ProductRow) (page limit : Nat)
    (category_id brand_id : Option Nat)
    (hpage : 1 ≤ page) (hlimit : 1 ≤ limit)
    (hcat : ∀ c, category_id = some c → c ≠ 0)
    (hbrand : ∀ b, brand_id = some b → b ≠ 0) :
    (get_products table page limit category_id brand_id).items.length ≤ limit ∧
    (∀ it ∈ (get_products table page limit category_id brand_id).items,
      ∃ p ∈ table, it = productItemOf p ∧ p.status = 1 ∧
        (∀ c, category_id = some c → p.category_id = some c) ∧
        (∀ b, brand_id = some b → p.brand_id = some b)) ∧
    (∃ rs : List ProductRow,
      (get_products table page limit category_id brand_id).items =
        rs.map productItemOf ∧ rs.Pairwise newestFirst) ∧
    (get_products table page limit category_id brand_id).total =
      table.countP (fun p =>
        p.status == 1 && category_id.all (fun c => p.category_id == some c) &&
          brand_id.all (fun b => p.brand_id == some b)) ∧
    (get_products table page limit category_id brand_id).pages =
      ((get_products table page limit category_id brand_id).total + limit - 1) /
        limit ∧
    (get_products table page limit category_id brand_id).total ≤
      (get_products table page limit category_id brand_id).pages * limit ∧
    (∀ k, (get_products table page limit category_id brand_id).total ≤ k * limit →
      (get_products table page limit category_id brand_id).pages ≤ k) := by
  have hpred : ∀ p ∈ table, productWhere category_id brand_id p =
      (p.status == 1 && category_id.all (fun c => p.category_id == some c) &&
        brand_id.all (fun b => p.brand_id == some b)) := by
    intro p _
    unfold productWhere
    congr 1
    · congr 1
      cases category_id with
      | none => rfl
      | some c =>
        have := hcat c rfl
        simp [natTruthy, Option.all, this]
    · cases brand_id with
      | none => rfl
      | some b =>
        have := hbrand b rfl
        simp [natTruthy, Option.all, this]
  have hsub : (((List.insertionSort newestFirst
      (table.filter (productWhere category_id brand_id))).drop
        ((page - 1) * limit)).take limit).Sublist
      (List.insertionSort newestFirst
        (table.filter (productWhere category_id brand_id))) :=
    (List.take_sublist _ _).trans (List.drop_sublist _ _)
  refine ⟨?_, ?_, ?_, ?_, rfl, ?_, ?_⟩
  · simp only [get_products, List.length_map, List.length_take]
    exact min_le_left _ _
  · intro it hit
    simp only [get_products, List.mem_map] at hit
    obtain ⟨p, hp, hpit⟩ := hit
    have hpmem : p ∈ List.insertionSort newestFirst
        (table.filter (productWhere category_id brand_id)) := hsub.mem hp
    have hpfil : p ∈ table.filter (productWhere category_id brand_id) :=
      (List.perm_insertionSort newestFirst _).mem_iff.mp hpmem
    rw [List.mem_filter] at hpfil
    obtain ⟨hptab, hpw⟩ := hpfil
    refine ⟨p, hptab, hpit.symm, ?_, ?_, ?_⟩
    · have := hpred p hptab
      rw [this] at hpw
      simp only [Bool.and_eq_true, beq_iff_eq] at hpw
      exact hpw.1.1
    · intro c hc
      subst hc
      have := hpred p hptab
      rw [this] at hpw
      simp only [Bool.and_eq_true, beq_iff_eq, Option.all_some] at hpw
      exact hpw.1.2
    · intro b hb
      subst hb
      have := hpred p hptab
      rw [this] at hpw
      simp only [Bool.and_eq_true, beq_iff_eq, Option.all_some] at hpw
      exact hpw.2
  · refine ⟨((List.insertionSort newestFirst
      (table.filter (productWhere category_id brand_id))).drop
        ((page - 1) * limit)).take limit, rfl, ?_⟩
    exact List.Pairwise.sublist hsub
      (List.sorted_insertionSort newestFirst _)
  · simp only [get_products]
    rw [← List.countP_eq_length_filter]
    exact List.countP_congr (fun x hx => by rw [hpred x hx])
  · exact (ceil_div_spec _ limit hlimit).1
  · exact (ceil_div_spec _ limit hlimit).2

/-- Witness for C7 (amended) at a concrete table with no filters. -/
theorem c7_list_products_amended_witness :
    (get_products wTable7 1 20 none none).items.length ≤ 20 ∧
    (get_products wTable7 1 20 none none).total = 1 ∧
    (get_products wTable7 1 20 none none).pages = 1 := by
  have h := c7_list_products_amended wTable7 1 20 none none (by decide) (by decide)
    (fun c hc => by cases hc) (fun b hb => by cases hb)
  refine ⟨h.1, ?_, ?_⟩
  · rw [h.2.2.2.1]
    decide
  · rw [h.2.2.2.2.1, h.2.2.2.1]
    decide

/-- C8: `get_product_detail` yields the 404 outcome (`none`) iff no
product has the requested id; otherwise the attached affiliate links are
exactly (a permutation of) the product's links with conversion status
"success", ordered newest-first, links with any other status are
excluded, and the buy URL/platform come from the first such link, or are
null when none exists. -/
theorem c8_product_detail (products : List ProductRow) (brands : List BrandRow)
    (links : List AffiliateLinkRow) (pid : Nat) :
    (get_product_detail products brands links pid = none ↔
      ∀ p ∈ products, p.product_id ≠ pid) ∧
    ∀ d, get_product_detail products brands links pid = some d →
      ∃ rs : List AffiliateLinkRow,
        rs.Perm (links.filter (fun l =>
          l.product_id == pid && l.conversion_status == "success")) ∧
        d.affiliate_links = rs.map linkItemOf ∧
        rs.Pairwise linkNewestFirst ∧
        (∀ li ∈ d.affiliate_links, li.conversion_status = "success") ∧
        (∀ li ∈ d.affiliate_links, ∃ l ∈ links,
          li = linkItemOf l ∧ l.product_id = pid ∧
            l.conversion_status = "success") ∧
        (rs = [] → d.buy_url = none ∧ d.buy_platform = none) ∧
        (∀ l rest, rs = l :: rest →
          d.buy_url = l.affiliate_long_url ∧ d.buy_platform = some l.platform) := by
  constructor
  · cases hfind : products.find? (fun p => p.product_id == pid) with
    | none =>
      simp only [get_product_detail, hfind]
      rw [List.find?_eq_none] at hfind
      simpa using hfind
    | some p =>
      simp only [get_product_detail, hfind]
      constructor
      · intro h; cases h
      · intro hall
        have hp := List.mem_of_find?_eq_some hfind
        have := List.find?_some hfind
        rw [beq_iff_eq] at this
        exact absurd this (hall p hp)
  · intro d hd
    cases hfind : products.find? (fun p => p.product_id == pid) with
    | none => rw [get_product_detail, hfind] at hd; cases hd
    | some p =>
      rw [get_product_detail, hfind] at hd
      have hd' := Option.some.inj hd
      subst hd'
      refine ⟨List.insertionSort linkNewestFirst
        (links.filter (fun l =>
          l.product_id == pid && l.conversion_status == "success")),
        List.perm_insertionSort _ _, rfl,
        List.sorted_insertionSort _ _, ?_, ?_, ?_, ?_⟩
      · intro li hli
        rw [List.mem_map] at hli
        obtain ⟨l, hl, hlli⟩ := hli
        have hl' := (List.perm_insertionSort linkNewestFirst _).mem_iff.mp hl
        rw [List.mem_filter] at hl'
        have := hl'.2
        simp only [Bool.and_eq_true, beq_iff_eq] at this
        rw [← hlli]
        exact this.2
      · intro li hli
        rw [List.mem_map] at hli
        obtain ⟨l, hl, hlli⟩ := hli
        have hl' := (List.perm_insertionSort linkNewestFirst _).mem_iff.mp hl
        rw [List.mem_filter] at hl'
        have hcond := hl'.2
        simp only [Bool.and_eq_true, beq_iff_eq] at hcond
        exact ⟨l, hl'.1, hlli.symm, hcond.1, hcond.2⟩
      · intro hrs
        rw [hrs]
        exact ⟨rfl, rfl⟩
      · intro l rest hrs
        rw [hrs]
        exact ⟨rfl, rfl⟩

/-- Witness for C8: a product with one "success" and one "pending" link
exposes exactly the success link, whose URL becomes the buy URL. -/
theorem c8_product_detail_witness :
    get_product_detail [wProduct8] [] [wSuccessLink, wPendingLink] 1 =
      some wDetail8 ∧
    ∃ rs : List AffiliateLinkRow,
      rs.Perm ([wSuccessLink, wPendingLink].filter (fun l =>
        l.product_id == 1 && l.conversion_status == "success")) ∧
      wDetail8.affiliate_links = rs.map linkItemOf ∧
      rs.Pairwise linkNewestFirst ∧
      (∀ li ∈ wDetail8.affiliate_links, li.conversion_status = "success") ∧
      (∀ li ∈ wDetail8.affiliate_links, ∃ l ∈ [wSuccessLink, wPendingLink],
        li = linkItemOf l ∧ l.product_id = 1 ∧
          l.conversion_status = "success") ∧
      (rs = [] → wDetail8.buy_url = none ∧ wDetail8.buy_platform = none) ∧
      (∀ l rest, rs = l :: rest →
        wDetail8.buy_url = l.affiliate_long_url ∧
          wDetail8.buy_platform = some l.platform) :=
  ⟨by decide,
   (c8_product_detail [wProduct8] [] [wSuccessLink, wPendingLink] 1).2 wDetail8
     (by decide)⟩

/-- When the stored access-token hashes are pairwise distinct, the hash
lookup of `get_user_id_from_token` finds exactly the row carrying the
token's hash. -/
theorem find_session_unique (sha256hex : String → String)
    (sessions : List SessionRow) (tok : String) (row : SessionRow)
    (huniq : (sessions.map SessionRow.access_token_hash).Nodup)
    (hmem : row ∈ sessions) (hhash : row.access_token_hash = sha256hex tok) :
    sessions.find? (fun r => r.access_token_hash == hash_token sha256hex tok) =
      some row := by
  have hex : ∃ x ∈ sessions,
      (x.access_token_hash == hash_token sha256hex tok) = true :=
    ⟨row, hmem, by simp [hash_token, hhash]⟩
  have hsome := List.find?_isSome.mpr hex
  cases hfind : sessions.find?
      (fun r => r.access_token_hash == hash_token sha256hex tok) with
  | none => rw [hfind] at hsome; cases hsome
  | some r' =>
    have hmem' := List.mem_of_find?_eq_some hfind
    have hp := List.find?_some hfind
    rw [beq_iff_eq] at hp
    have : r' = row := by
      apply List.inj_on_of_nodup_map huniq hmem' hmem
      rw [hp, hhash, hash_token]
    rw [this]

/-- C1: for a stored session table (rows carry a parsed positive access
expiry in their metadata, as `create_session` writes them, and hashes are
unique), `get_user_id_from_token` returns a user id iff some row's
`access_token_hash` equals the hash of the presented token, that row is
not revoked, and its embedded access expiry has not elapsed
(`now_ms ≤ e`; the token is rejected strictly after `e` and never
before); and it returns `none` for every token whose hash matches no
stored row — in particular for every token never issued. -/
theorem c1_resolve_user (sha256hex : String → String) (now_ms : Int)
    (sessions : List SessionRow) (tok : String)
    (hwf : ∀ r ∈ sessions, ∃ e, r.meta = SessionMeta.parsed (some e) ∧ 0 < e)
    (huniq : (sessions.map SessionRow.access_token_hash).Nodup) :
    (∀ uid, get_user_id_from_token sha256hex now_ms sessions tok = some uid ↔
      (tok ≠ "" ∧ ∃ r ∈ sessions, r.access_token_hash = sha256hex tok ∧
        r.user_id = uid ∧ r.revoked_at = none ∧
        ∃ e, r.meta = SessionMeta.parsed (some e) ∧ now_ms ≤ e)) ∧
    ((∀ r ∈ sessions, r.access_token_hash ≠ sha256hex tok) →
      get_user_id_from_token sha256hex now_ms sessions tok = none) := by
  constructor
  · intro uid
    constructor
    · intro hres
      by_cases htok : tok = ""
      · rw [get_user_id_from_token, if_pos htok] at hres
        cases hres
      · rw [get_user_id_from_token, if_neg htok] at hres
        refine ⟨htok, ?_⟩
        cases hfind : sessions.find?
            (fun r => r.access_token_hash == hash_token sha256hex tok) with
        | none => rw [hfind] at hres; exact absurd hres (by simp)
        | some row =>
          rw [hfind] at hres
          dsimp only at hres
          have hmem := List.mem_of_find?_eq_some hfind
          have hp := List.find?_some hfind
          rw [beq_iff_eq] at hp
          by_cases hrev : row.revoked_at.isSome
          · rw [if_pos hrev] at hres; cases hres
          · rw [if_neg hrev] at hres
            obtain ⟨e, hmeta, hepos⟩ := hwf row hmem
            rw [hmeta] at hres
            dsimp only at hres
            by_cases hexp : e ≠ 0 ∧ e < now_ms
            · rw [if_pos hexp] at hres; cases hres
            · rw [if_neg hexp] at hres
              have huid := Option.some.inj hres
              refine ⟨row, hmem, by rw [hp, hash_token], huid, ?_, e, hmeta, ?_⟩
              · exact Option.not_isSome_iff_eq_none.mp hrev
              · have : ¬ e < now_ms := fun hlt => hexp ⟨by omega, hlt⟩
                omega
    · rintro ⟨htok, r, hmem, hhash, huid, hrev, e, hmeta, hnow⟩
      rw [get_user_id_from_token, if_neg htok,
        find_session_unique sha256hex sessions tok r huniq hmem hhash]
      dsimp only
      rw [show r.revoked_at.isSome = false by rw [hrev]; rfl]
      simp only [Bool.false_eq_true, if_false, hmeta]
      rw [if_neg (fun hc => by omega)]
      rw [huid]
  · intro hnone
    by_cases htok : tok = ""
    · rw [get_user_id_from_token, if_pos htok]
    · rw [get_user_id_from_token, if_neg htok]
      have : sessions.find?
          (fun r => r.access_token_hash == hash_token sha256hex tok) = none := by
        rw [List.find?_eq_none]
        intro r hr
        simp only [beq_iff_eq, hash_token]
        exact hnone r hr
      rw [this]

/-- Witness for C1: before the embedded expiry the matching token
resolves; a token whose hash matches no row is rejected. -/
theorem c1_resolve_user_witness :
    get_user_id_from_token (fun _ => "H") 50 [wSession1] "t" = some 7 ∧
    get_user_id_from_token (fun _ => "X") 50 [wSession1] "t" = none := by
  have hwf : ∀ r ∈ [wSession1],
      ∃ e, r.meta = SessionMeta.parsed (some e) ∧ 0 < e := by
    intro r hr
    rw [List.mem_singleton] at hr
    subst hr
    exact ⟨100, rfl, by decide⟩
  constructor
  · exact ((c1_resolve_user (fun _ => "H") 50 [wSession1] "t" hwf
      (by decide)).1 7).mpr
      ⟨by decide, wSession1, List.mem_singleton.mpr rfl, rfl, rfl, rfl,
        100, rfl, by decide⟩
  · exact (c1_resolve_user (fun _ => "X") 50 [wSession1] "t" hwf
      (by decide)).2
      (by intro r hr; rw [List.mem_singleton] at hr; subst hr; decide)

/-- C9: a matching, unrevoked session row whose metadata is absent (NULL
or empty) or parses without an `access_expires_at` entry is accepted with
no expiry check at all, at every current time — the token stays valid
until revocation; a row whose metadata fails to parse as JSON is treated
as invalid. -/
theorem c9_meta_edge_cases (sha256hex : String → String) (now_ms : Int)
    (sessions : List SessionRow) (tok : String) (row : SessionRow)
    (huniq : (sessions.map SessionRow.access_token_hash).Nodup)
    (hmem : row ∈ sessions) (hhash : row.access_token_hash = sha256hex tok)
    (hrev : row.revoked_at = none) (htok : tok ≠ "") :
    ((row.meta = SessionMeta.absent ∨ row.meta = SessionMeta.parsed none) →
      get_user_id_from_token sha256hex now_ms sessions tok = some row.user_id) ∧
    (row.meta = SessionMeta.invalid →
      get_user_id_from_token sha256hex now_ms sessions tok = none) := by
  have hfind := find_session_unique sha256hex sessions tok row huniq hmem hhash
  have hrevb : row.revoked_at.isSome = false := by rw [hrev]; rfl
  constructor
  · intro hmeta
    rw [get_user_id_from_token, if_neg htok, hfind]
    dsimp only
    rw [hrevb]
    cases hmeta with
    | inl h => simp only [Bool.false_eq_true, if_false, h]
    | inr h => simp only [Bool.false_eq_true, if_false, h]
  · intro hmeta
    rw [get_user_id_from_token, if_neg htok, hfind]
    dsimp only
    rw [hrevb]
    simp only [Bool.false_eq_true, if_false, hmeta]

/-- Witness for C9: an absent-metadata row is accepted at an arbitrarily
late time; an unparseable-metadata row is rejected. -/
theorem c9_meta_edge_cases_witness :
    get_user_id_from_token (fun _ => "H") 99999999999999 [wSessionAbsent] "t" =
      some 7 ∧
    get_user_id_from_token (fun _ => "H") 50 [wSessionInvalid] "t" = none :=
  ⟨(c9_meta_edge_cases (fun _ => "H") 99999999999999 [wSessionAbsent] "t"
      wSessionAbsent (by decide) (List.mem_singleton.mpr rfl) rfl rfl
      (by decide)).1 (Or.inl rfl),
   (c9_meta_edge_cases (fun _ => "H") 50 [wSessionInvalid] "t"
      wSessionInvalid (by decide) (List.mem_singleton.mpr rfl) rfl rfl
      (by decide)).2 rfl⟩

/-- The COALESCE update with all-NULL arguments is the identity on every
row. -/
theorem applyProfileUpdate_none_id (uid : Nat) (u : UserRow) :
    applyProfileUpdate none none none uid u = u := by
  unfold applyProfileUpdate
  split <;> rfl

/-- C10: an authenticated `update_profile` call with both `nickName` and
`avatarUrl` absent writes no profile JSON, leaves every user row
unchanged (each COALESCE argument is NULL), and still returns ok; and
for every payload the call returns ok and never modifies any user row
other than ones owned by the token's resolved user id. -/
theorem c10_update_profile_frame (sha256hex : String → String) (now_ms : Int)
    (sessions : List SessionRow) (users : List UserRow)
    (dumps2 : Option String → Option String → String) (hdr : String) (uid : Nat)
    (hhdr : ¬hdr = "")
    (hpre : charsPre "Bearer ".toList hdr.toList = true)
    (hres : get_user_id_from_token sha256hex now_ms sessions (extractBearer hdr) =
      some uid)
    (huid : ¬uid = 0) :
    update_profile sha256hex now_ms sessions users dumps2 (some hdr) none none =
      Except.ok users ∧
    ∀ nickName avatarUrl, ∃ users2 : List UserRow,
      update_profile sha256hex now_ms sessions users dumps2 (some hdr)
        nickName avatarUrl = Except.ok users2 ∧
      users2.length = users.length ∧
      ∀ (i : Fin users.length) (j : Fin users2.length), i.val = j.val →
        (users.get i).id ≠ uid → users2.get j = users.get i := by
  have hcond : (hdr == "" || !charsPre "Bearer ".toList hdr.toList) = false := by
    rw [hpre]
    simp [hhdr]
  have huidb : (uid == 0) = false := by simp [huid]
  have hok : ∀ nickName avatarUrl,
      update_profile sha256hex now_ms sessions users dumps2 (some hdr)
        nickName avatarUrl =
      Except.ok (users.map (applyProfileUpdate nickName avatarUrl
        (if strTruthy nickName || strTruthy avatarUrl then
          some (dumps2 nickName avatarUrl) else none) uid)) := by
    intro nickName avatarUrl
    rw [update_profile]
    dsimp only
    rw [hcond]
    simp only [Bool.false_eq_true, if_false]
    rw [hres]
    dsimp only
    rw [huidb]
    simp only [Bool.false_eq_true, if_false]
  constructor
  · rw [hok none none]
    have : users.map (applyProfileUpdate none none
        (if strTruthy none || strTruthy none then
          some (dumps2 none none) else none) uid) = users := by
      apply map_self
      intro u
      exact applyProfileUpdate_none_id uid u
    rw [this]
  · intro nickName avatarUrl
    refine ⟨users.map (applyProfileUpdate nickName avatarUrl
      (if strTruthy nickName || strTruthy avatarUrl then
        some (dumps2 nickName avatarUrl) else none) uid),
      hok nickName avatarUrl, List.length_map _ _, ?_⟩
    intro i j hij hne
    have hj : j.val < users.length := by
      have := j.isLt
      simpa using this
    have hgetj : (users.map (applyProfileUpdate nickName avatarUrl
        (if strTruthy nickName || strTruthy avatarUrl then
          some (dumps2 nickName avatarUrl) else none) uid)).get j =
        applyProfileUpdate nickName avatarUrl
          (if strTruthy nickName || strTruthy avatarUrl then
            some (dumps2 nickName avatarUrl) else none) uid
          (users.get ⟨j.val, hj⟩) := by
      simp [List.get_eq_getElem, List.getElem_map]
    have hfin : (⟨j.val, hj⟩ : Fin users.length) = i := by
      apply Fin.ext
      exact hij.symm
    rw [hgetj, hfin]
    unfold applyProfileUpdate
    rw [if_neg (by simpa using hne)]

/-- Witness for C10: with an all-absent payload the table is returned
unchanged; with a nickname supplied, the other user's row is untouched. -/
theorem c10_update_profile_frame_witness :
    update_profile (fun s => s) 0 [wSessionTok] wUsers10 (fun _ _ => "J")
      (some "Bearer tok") none none = Except.ok wUsers10 ∧
    ∃ users2 : List UserRow,
      update_profile (fun s => s) 0 [wSessionTok] wUsers10 (fun _ _ => "J")
        (some "Bearer tok") (some "N") none = Except.ok users2 ∧
      users2.length = wUsers10.length ∧
      ∀ (i : Fin wUsers10.length) (j : Fin users2.length), i.val = j.val →
        (wUsers10.get i).id ≠ 7 → users2.get j = wUsers10.get i := by
  have h := c10_update_profile_frame (fun s => s) 0 [wSessionTok] wUsers10
    (fun _ _ => "J") "Bearer tok" 7 (by decide) (by decide) (by decide)
    (by decide)
  exact ⟨h.1, h.2 (some "N") none⟩

/-- The unionid touch-up (`SET provider_user_id = provider_user_id`) is
the identity on every row. -/
theorem unionUpdate_id (uid : Nat) (a : UserAuthRow) :
    (if a.user_id == uid && a.provider == "wechat" then
      { a with provider_user_id := a.provider_user_id } else a) = a := by
  split <;> rfl

/-- When the binding exists, a login returns its user id. -/
theorem goc_uid_found (dumps : WechatProfile → String) (openid : String)
    (unionid : Option String) (profile : Option WechatProfile)
    (host : Option String) (fresh_uuid : String) (now_ms : Int) (db : AuthDB)
    (a : UserAuthRow)
    (hfind : db.user_auths.find? (wechatJoin db.users openid) = some a) :
    (get_or_create_user dumps openid unionid profile host fresh_uuid now_ms db).1 =
      a.user_id := by
  simp [get_or_create_user, hfind]

/-- When the binding is missing, a login returns the fresh auto-increment
id. -/
theorem goc_uid_fresh (dumps : WechatProfile → String) (openid : String)
    (unionid : Option String) (profile : Option WechatProfile)
    (host : Option String) (fresh_uuid : String) (now_ms : Int) (db : AuthDB)
    (hfind : db.user_auths.find? (wechatJoin db.users openid) = none) :
    (get_or_create_user dumps openid unionid profile host fresh_uuid now_ms db).1 =
      db.next_user_id := by
  simp [get_or_create_user, hfind]

/-- When the binding exists, a login leaves the `user_auths` table
unchanged. -/
theorem goc_auths_found (dumps : WechatProfile → String) (openid : String)
    (unionid : Option String) (profile : Option WechatProfile)
    (host : Option String) (fresh_uuid : String) (now_ms : Int) (db : AuthDB)
    (a : UserAuthRow)
    (hfind : db.user_auths.find? (wechatJoin db.users openid) = some a) :
    (get_or_create_user dumps openid unionid profile host fresh_uuid now_ms
      db).2.user_auths = db.user_auths := by
  simp only [get_or_create_user, hfind]
  split
  · exact map_self _ _ (unionUpdate_id a.user_id)
  · rfl

/-- When the binding is missing, a login appends exactly one new binding
row for provider "wechat" and the fresh user id. -/
theorem goc_auths_fresh (dumps : WechatProfile → String) (openid : String)
    (unionid : Option String) (profile : Option WechatProfile)
    (host : Option String) (fresh_uuid : String) (now_ms : Int) (db : AuthDB)
    (hfind : db.user_auths.find? (wechatJoin db.users openid) = none) :
    (get_or_create_user dumps openid unionid profile host fresh_uuid now_ms
      db).2.user_auths =
      db.user_auths ++
        [{ user_id := db.next_user_id, provider := "wechat",
           provider_user_id := openid, verified := 1 }] := by
  simp only [get_or_create_user, hfind]
  split
  · exact map_self _ _ (unionUpdate_id db.next_user_id)
  · rfl

/-- When the binding exists, the resulting `users` table is an
id-preserving rewrite of the original one. -/
theorem goc_users_found (dumps : WechatProfile → String) (openid : String)
    (unionid : Option String) (profile : Option WechatProfile)
    (host : Option String) (fresh_uuid : String) (now_ms : Int) (db : AuthDB)
    (a : UserAuthRow)
    (hfind : db.user_auths.find? (wechatJoin db.users openid) = some a) :
    ∃ g : UserRow → UserRow,
      (get_or_create_user dumps openid unionid profile host fresh_uuid now_ms
        db).2.users = db.users.map g ∧ ∀ u, (g u).id = u.id := by
  cases profile with
  | none =>
    refine ⟨applyLastLogin now_ms host a.user_id, ?_, applyLastLogin_id _ _ _⟩
    simp [get_or_create_user, hfind]
  | some p =>
    refine ⟨fun u => applyLastLogin now_ms host a.user_id
      (applyProfileUpdate p.nickName p.avatarUrl (some (dumps p)) a.user_id u),
      ?_, ?_⟩
    · simp [get_or_create_user, hfind, List.map_map, Function.comp]
    · intro u
      rw [applyLastLogin_id, applyProfileUpdate_id]

/-- When the binding is missing, the resulting `users` table is an
id-preserving rewrite of the original table extended with exactly one new
row carrying the fresh id. -/
theorem goc_users_fresh (dumps : WechatProfile → String) (openid : String)
    (unionid : Option String) (profile : Option WechatProfile)
    (host : Option String) (fresh_uuid : String) (now_ms : Int) (db : AuthDB)
    (hfind : db.user_auths.find? (wechatJoin db.users openid) = none) :
    ∃ (g : UserRow → UserRow) (w : UserRow),
      (get_or_create_user dumps openid unionid profile host fresh_uuid now_ms
        db).2.users = (db.users ++ [w]).map g ∧
      (∀ u, (g u).id = u.id) ∧ w.id = db.next_user_id := by
  cases profile with
  | none =>
    refine ⟨applyLastLogin now_ms host db.next_user_id,
      { id := db.next_user_id, uuid := fresh_uuid, username := none,
        avatar := none, profile := none, last_login_at := none,
        last_login_ip := none }, ?_, applyLastLogin_id _ _ _, rfl⟩
    simp [get_or_create_user, hfind]
  | some p =>
    refine ⟨fun u => applyLastLogin now_ms host db.next_user_id
      (applyProfileUpdate p.nickName p.avatarUrl (some (dumps p))
        db.next_user_id u),
      { id := db.next_user_id, uuid := fresh_uuid, username := p.nickName,
        avatar := p.avatarUrl, profile := some (dumps p),
        last_login_at := none, last_login_ip := none }, ?_, ?_, rfl⟩
    · simp [get_or_create_user, hfind, List.map_map, Function.comp]
    · intro u
      rw [applyLastLogin_id, applyProfileUpdate_id]

/-- Two sequential logins with the same WeChat subject id resolve to the
same user id, whatever the other request parameters are. -/
theorem goc_repeat (d1 : WechatProfile → String) (openid : String)
    (un1 : Option String) (p1 : Option WechatProfile) (h1 : Option String)
    (uu1 : String) (t1 : Int) (db : AuthDB)
    (d2 : WechatProfile → String) (un2 : Option String)
    (p2 : Option WechatProfile) (h2 : Option String) (uu2 : String) (t2 : Int) :
    (get_or_create_user d2 openid un2 p2 h2 uu2 t2
      (get_or_create_user d1 openid un1 p1 h1 uu1 t1 db).2).1 =
    (get_or_create_user d1 openid un1 p1 h1 uu1 t1 db).1 := by
  cases hfind : db.user_auths.find? (wechatJoin db.users openid) with
  | some a =>
    obtain ⟨g, husers, hg⟩ :=
      goc_users_found d1 openid un1 p1 h1 uu1 t1 db a hfind
    have hauths := goc_auths_found d1 openid un1 p1 h1 uu1 t1 db a hfind
    have hpred : wechatJoin
        (get_or_create_user d1 openid un1 p1 h1 uu1 t1 db).2.users openid =
        wechatJoin db.users openid := by
      funext x
      unfold wechatJoin
      rw [husers, any_id_map db.users g hg]
    have hfind2 : (get_or_create_user d1 openid un1 p1 h1 uu1 t1
        db).2.user_auths.find? (wechatJoin
          (get_or_create_user d1 openid un1 p1 h1 uu1 t1 db).2.users openid) =
        some a := by
      rw [hauths, hpred, hfind]
    rw [goc_uid_found d2 openid un2 p2 h2 uu2 t2 _ a hfind2,
        goc_uid_found d1 openid un1 p1 h1 uu1 t1 db a hfind]
  | none =>
    obtain ⟨g, w, husers, hg, hwid⟩ :=
      goc_users_fresh d1 openid un1 p1 h1 uu1 t1 db hfind
    have hauths := goc_auths_fresh d1 openid un1 p1 h1 uu1 t1 db hfind
    have hany : ∀ n, (get_or_create_user d1 openid un1 p1 h1 uu1 t1
        db).2.users.any (fun u => u.id == n) =
        (db.users.any (fun u => u.id == n) || (db.next_user_id == n)) := by
      intro n
      rw [husers, any_id_map _ g hg, List.any_append]
      simp [hwid]
    rw [goc_uid_fresh d1 openid un1 p1 h1 uu1 t1 db hfind]
    cases hfind2 : db.user_auths.find? (wechatJoin
        (get_or_create_user d1 openid un1 p1 h1 uu1 t1 db).2.users openid) with
    | some a' =>
      have hf : (get_or_create_user d1 openid un1 p1 h1 uu1 t1
          db).2.user_auths.find? (wechatJoin
            (get_or_create_user d1 openid un1 p1 h1 uu1 t1 db).2.users openid) =
          some a' := by
        rw [hauths, List.find?_append, hfind2]
        rfl
      rw [goc_uid_found d2 openid un2 p2 h2 uu2 t2 _ a' hf]
      have hp := List.find?_some hfind2
      have hmem := List.mem_of_find?_eq_some hfind2
      have hnone := List.find?_eq_none.mp hfind a' hmem
      unfold wechatJoin at hp hnone
      rw [hany] at hp
      simp only [Bool.and_eq_true, Bool.or_eq_true, beq_iff_eq] at hp hnone
      rcases hp with ⟨⟨hprov, hopen⟩, hor⟩
      cases hor with
      | inl hdb => exact absurd ⟨⟨hprov, hopen⟩, hdb⟩ hnone
      | inr hnext => omega
    | none =>
      have hnew : wechatJoin
          (get_or_create_user d1 openid un1 p1 h1 uu1 t1 db).2.users openid
          { user_id := db.next_user_id, provider := "wechat",
            provider_user_id := openid, verified := 1 } = true := by
        unfold wechatJoin
        rw [hany]
        simp
      have hf : (get_or_create_user d1 openid un1 p1 h1 uu1 t1
          db).2.user_auths.find? (wechatJoin
            (get_or_create_user d1 openid un1 p1 h1 uu1 t1 db).2.users openid) =
          some { user_id := db.next_user_id, provider := "wechat",
                 provider_user_id := openid, verified := 1 } := by
        rw [hauths, List.find?_append, hfind2, List.find?_cons_of_pos _ hnew]
        rfl
      rw [goc_uid_found d2 openid un2 p2 h2 uu2 t2 _ _ hf]

/-- An id-preserving rewrite of the user table preserves "exactly one
user row carries this id". -/
theorem existsUnique_map_id (l : List UserRow) (g : UserRow → UserRow)
    (hg : ∀ u, (g u).id = u.id) (x : Nat)
    (h : ∃! u, u ∈ l ∧ u.id = x) : ∃! u, u ∈ l.map g ∧ u.id = x := by
  obtain ⟨u, ⟨hmem, hid⟩, huniq⟩ := h
  refine ⟨g u, ⟨List.mem_map_of_mem g hmem, by rw [hg, hid]⟩, ?_⟩
  rintro v ⟨hvmem, hvid⟩
  rw [List.mem_map] at hvmem
  obtain ⟨u2, hu2mem, hu2v⟩ := hvmem
  have hu2id : u2.id = x := by
    rw [← hvid, ← hu2v, hg]
  rw [← hu2v, huniq u2 ⟨hu2mem, hu2id⟩]

/-- Appending one fresh-id row and applying an id-preserving rewrite
preserves "exactly one user row carries this id", both for the fresh id
and for every id that was already uniquely bound. -/
theorem existsUnique_id_map_append (l : List UserRow) (w : UserRow)
    (g : UserRow → UserRow) (hg : ∀ u, (g u).id = u.id) (x : Nat)
    (hw : ∀ u ∈ l, u.id ≠ w.id)
    (h : x = w.id ∨ (∃! u, u ∈ l ∧ u.id = x)) :
    ∃! u, u ∈ (l ++ [w]).map g ∧ u.id = x := by
  cases h with
  | inl hx =>
    refine ⟨g w, ⟨List.mem_map_of_mem g (by simp), by rw [hg, hx]⟩, ?_⟩
    rintro v ⟨hvmem, hvid⟩
    rw [List.mem_map] at hvmem
    obtain ⟨u2, hu2mem, hu2v⟩ := hvmem
    rw [List.mem_append, List.mem_singleton] at hu2mem
    cases hu2mem with
    | inl hin =>
      have : u2.id = w.id := by
        rw [← hx, ← hvid, ← hu2v, hg]
      exact absurd this (hw u2 hin)
    | inr huw =>
      rw [← hu2v, huw]
  | inr hex =>
    obtain ⟨u, ⟨hmem, hid⟩, huniq⟩ := hex
    refine ⟨g u, ⟨List.mem_map_of_mem g (by
      rw [List.mem_append]; exact Or.inl hmem), by rw [hg, hid]⟩, ?_⟩
    rintro v ⟨hvmem, hvid⟩
    rw [List.mem_map] at hvmem
    obtain ⟨u2, hu2mem, hu2v⟩ := hvmem
    have hu2id : u2.id = x := by
      rw [← hvid, ← hu2v, hg]
    rw [List.mem_append, List.mem_singleton] at hu2mem
    cases hu2mem with
    | inl hin =>
      rw [← hu2v, huniq u2 ⟨hin, hu2id⟩]
    | inr huw =>
      exfalso
      apply hw u hmem
      rw [hid, ← hu2id, huw]

/-- One login preserves the uniqueness invariant on bindings, provided the
auto-increment counter is ahead of every stored user id. -/
theorem goc_preserves_inv (dumps : WechatProfile → String) (openid : String)
    (unionid : Option String) (profile : Option WechatProfile)
    (host : Option String) (fresh_uuid : String) (now_ms : Int) (db : AuthDB)
    (hinv : AuthInv db) (hnext : ∀ u ∈ db.users, u.id ≠ db.next_user_id) :
    AuthInv (get_or_create_user dumps openid unionid profile host fresh_uuid
      now_ms db).2 := by
  obtain ⟨hpw, hres⟩ := hinv
  cases hfind : db.user_auths.find? (wechatJoin db.users openid) with
  | some a =>
    obtain ⟨g, husers, hg⟩ :=
      goc_users_found dumps openid unionid profile host fresh_uuid now_ms db a hfind
    have hauths :=
      goc_auths_found dumps openid unionid profile host fresh_uuid now_ms db a hfind
    constructor
    · rw [hauths]; exact hpw
    · intro b hb
      rw [hauths] at hb
      rw [husers]
      exact existsUnique_map_id db.users g hg b.user_id (hres b hb)
  | none =>
    obtain ⟨g, w, husers, hg, hwid⟩ :=
      goc_users_fresh dumps openid unionid profile host fresh_uuid now_ms db hfind
    have hauths :=
      goc_auths_fresh dumps openid unionid profile host fresh_uuid now_ms db hfind
    have hnoauth : ∀ b ∈ db.user_auths,
        ¬(b.provider = "wechat" ∧ b.provider_user_id = openid) := by
      rintro b hb ⟨hbp, hbo⟩
      have hn := List.find?_eq_none.mp hfind b hb
      apply hn
      unfold wechatJoin
      obtain ⟨u, ⟨hum, huid⟩, _⟩ := hres b hb
      have hany : db.users.any (fun v => v.id == b.user_id) = true := by
        rw [List.any_eq_true]
        exact ⟨u, hum, by simp [huid]⟩
      simp [hbp, hbo, hany]
    have hwnext : ∀ u ∈ db.users, u.id ≠ w.id := by
      intro u hu
      rw [hwid]
      exact hnext u hu
    constructor
    · rw [hauths, List.pairwise_append]
      refine ⟨hpw, List.pairwise_singleton _ _, ?_⟩
      intro b hb c hc
      rw [List.mem_singleton] at hc
      subst hc
      exact hnoauth b hb
    · intro b hb
      rw [hauths, List.mem_append, List.mem_singleton] at hb
      rw [husers]
      cases hb with
      | inl hbin =>
        exact existsUnique_id_map_append db.users w g hg b.user_id hwnext
          (Or.inr (hres b hbin))
      | inr hbw =>
        subst hbw
        exact existsUnique_id_map_append db.users w g hg _ hwnext
          (Or.inl hwid.symm)

/-- C3: two sequential `get_or_create_user` calls with the same WeChat
subject id return the same user id; when the subject id has no existing
binding, one call creates exactly one new user row and appends exactly one
new binding with provider "wechat" for the fresh auto-increment id; and a
call preserves the invariant that (provider, provider_user_id) is unique
and resolves to exactly one user, given that the auto-increment counter is
ahead of every stored user id. -/
theorem c3_identity_resolution (dumps : WechatProfile → String)
    (openid : String) (unionid : Option String)
    (profile : Option WechatProfile) (host : Option String)
    (fresh_uuid : String) (now_ms : Int) (db : AuthDB) :
    (∀ (d2 : WechatProfile → String) (un2 : Option String)
       (p2 : Option WechatProfile) (h2 : Option String) (uu2 : String)
       (t2 : Int),
      (get_or_create_user d2 openid un2 p2 h2 uu2 t2
        (get_or_create_user dumps openid unionid profile host fresh_uuid
          now_ms db).2).1 =
      (get_or_create_user dumps openid unionid profile host fresh_uuid
        now_ms db).1) ∧
    ((∀ a ∈ db.user_auths,
        ¬(a.provider = "wechat" ∧ a.provider_user_id = openid)) →
      (get_or_create_user dumps openid unionid profile host fresh_uuid
        now_ms db).2.users.length = db.users.length + 1 ∧
      (get_or_create_user dumps openid unionid profile host fresh_uuid
        now_ms db).2.user_auths = db.user_auths ++
        [{ user_id := (get_or_create_user dumps openid unionid profile host
             fresh_uuid now_ms db).1, provider := "wechat",
           provider_user_id := openid, verified := 1 }] ∧
      (get_or_create_user dumps openid unionid profile host fresh_uuid
        now_ms db).1 = db.next_user_id) ∧
    (AuthInv db → (∀ u ∈ db.users, u.id ≠ db.next_user_id) →
      AuthInv (get_or_create_user dumps openid unionid profile host fresh_uuid
        now_ms db).2) := by
  refine ⟨?_, ?_, ?_⟩
  · intro d2 un2 p2 h2 uu2 t2
    exact goc_repeat dumps openid unionid profile host fresh_uuid now_ms db
      d2 un2 p2 h2 uu2 t2
  · intro hfresh
    have hfind : db.user_auths.find? (wechatJoin db.users openid) = none := by
      rw [List.find?_eq_none]
      intro a ha hjoin
      unfold wechatJoin at hjoin
      simp only [Bool.and_eq_true, beq_iff_eq] at hjoin
      exact hfresh a ha ⟨hjoin.1.1, hjoin.1.2⟩
    obtain ⟨g, w, husers, hg, hwid⟩ :=
      goc_users_fresh dumps openid unionid profile host fresh_uuid now_ms db hfind
    refine ⟨?_, ?_, goc_uid_fresh dumps openid unionid profile host fresh_uuid
      now_ms db hfind⟩
    · rw [husers]
      simp
    · rw [goc_auths_fresh dumps openid unionid profile host fresh_uuid now_ms
        db hfind, goc_uid_fresh dumps openid unionid profile host fresh_uuid
        now_ms db hfind]
  · intro hinv hnext
    exact goc_preserves_inv dumps openid unionid profile host fresh_uuid
      now_ms db hinv hnext

/-- Witness for C3 at a first-ever login followed by a repeat login with
the same openid. -/
theorem c3_identity_resolution_witness :
    (get_or_create_user (fun _ => "pj") "o1" none none none "u2" 5
      (get_or_create_user (fun _ => "pj") "o1" none none none "u1" 0
        wEmptyDB).2).1 =
      (get_or_create_user (fun _ => "pj") "o1" none none none "u1" 0
        wEmptyDB).1 ∧
    (get_or_create_user (fun _ => "pj") "o1" none none none "u1" 0
      wEmptyDB).2.users.length = 1 ∧
    (get_or_create_user (fun _ => "pj") "o1" none none none "u1" 0
      wEmptyDB).1 = 1 ∧
    AuthInv (get_or_create_user (fun _ => "pj") "o1" none none none "u1" 0
      wEmptyDB).2 := by
  have h := c3_identity_resolution (fun _ => "pj") "o1" none none none "u1" 0
    wEmptyDB
  have hfresh : ∀ a ∈ wEmptyDB.user_auths,
      ¬(a.provider = "wechat" ∧ a.provider_user_id = "o1") := by
    intro a ha
    exact absurd ha (List.not_mem_nil a)
  obtain ⟨h1, h2, h3⟩ := h
  obtain ⟨hl, _, hid⟩ := h2 hfresh
  refine ⟨h1 (fun _ => "pj") none none none "u2" 5, ?_, hid, ?_⟩
  · rw [hl]
    rfl
  · refine h3 ⟨List.Pairwise.nil, ?_⟩ ?_
    · intro a ha
      exact absurd ha (List.not_mem_nil a)
    · intro u hu
      exact absurd hu (List.not_mem_nil u)

end Pindada
